import Mathlib

/-!
Verification development for the `sync-fs` filesystem synchronization engine
(`src/packages/sync-fs/lib/index.ts`).

The shallow embedding below translates the `SyncFS` class into pure Lean
functions.  Stateful code is modelled by explicit state passing on the record
`FS` (the mutable instance fields `state`, `numFails`, `syncInterval`), and
every externally visible action (API calls, tar invocations, filesystem
mutations, mount operations) is recorded in an explicit trace of `Effect`
values, in the order the code performs them.  Awaited collaborator results
(`mtimeDirTree`, `api.syncFS`, `get-detailed-state`, whether `__doSync`
throws, whether `close()` ran during the cycle) are inputs to the functions.
Numbers that are JS floats (the adaptive interval, in seconds) are modelled
as rationals; timestamps are integers.
-/

namespace SyncFS

/-- Lifecycle states of the `SyncFS` class: `type State = "init" | "ready" | "sync" | "closed"`. -/
inductive State where
  | init
  | ready
  | sync
  | closed
deriving DecidableEq, Repr

/-- The string the TS runtime would interpolate for each state value. -/
def stateStr : State → String
  | State.init => "init"
  | State.ready => "ready"
  | State.sync => "sync"
  | State.closed => "closed"

/-- `const MAX_FAILURES_IN_A_ROW = 3`. -/
def MAX_FAILURES_IN_A_ROW : Nat := 3

/-- `const UNIONFS = ".unionfs-fuse"`. -/
def UNIONFS : String := ".unionfs-fuse"

/-- `const DEFAULT_SYNC_INTERVAL_MIN_S = 10`. -/
def DEFAULT_SYNC_INTERVAL_MIN_S : ℚ := 10

/-- `const DEFAULT_SYNC_INTERVAL_MAX_S = 30`. -/
def DEFAULT_SYNC_INTERVAL_MAX_S : ℚ := 30

/-- POSIX `join` for the argument shapes used in this file (no trailing
slashes, relative second component). -/
def pjoin (a b : String) : String := a ++ "/" ++ b

/-- Static configuration of a `SyncFS` instance (the constructor arguments
that are stored in instance fields and never mutated). -/
structure Config where
  lower : String
  upper : String
  mount : String
  data : String
  compute_server_id : Nat
  syncIntervalMin : ℚ
  syncIntervalMax : ℚ
  exclude : List String
  readTrackingFile : Option String

/-- `this.scratch = join(this.lower, ".compute-servers", `${this.compute_server_id}`)`. -/
def scratch (cfg : Config) : String :=
  pjoin cfg.lower (pjoin ".compute-servers" (toString cfg.compute_server_id))

/-- `this.error_txt = join(this.scratch, "error.txt")`. -/
def error_txt (cfg : Config) : String := pjoin (scratch cfg) "error.txt"

/-- The mutable instance fields of `SyncFS` that the sync loop reads and
writes: `state`, `numFails`, `syncInterval`. -/
structure FS where
  state : State
  numFails : Nat
  syncInterval : ℚ
deriving DecidableEq, Repr

/-- One `{createArgs, extractArgs}` pair handed to a tar primitive. -/
structure TarCall where
  createArgs : List String
  extractArgs : List String
deriving DecidableEq, Repr

/-- The lz4 decoration installed by the constructor: `const alter = (v) =>
["-I", "lz4"].concat(v)` applied to both `createArgs` and `extractArgs`
before the underlying `tar.send` / `tar.get` runs. -/
def lz4Wrap (t : TarCall) : TarCall :=
  ⟨["-I", "lz4"] ++ t.createArgs, ["-I", "lz4"] ++ t.extractArgs⟩

/-- The constructor's selection of `this.tar`, expressed as the
transformation applied to each call before it reaches the underlying `tar`
primitives.  The `compression` argument is `Option String`: `none` models an
omitted argument, which the default parameter turns into `"lz4"`; an
explicitly passed string is `some s`, and the only falsy string is `""`.
`if (!compression) this.tar = tar; else if (compression == "lz4") ...wrap...;
else throw Error(...)`. -/
def constructorTar (compression : Option String) : Except String (TarCall → TarCall) :=
  let c := compression.getD "lz4"
  if c = "" then Except.ok id
  else if c = "lz4" then Except.ok lz4Wrap
  else Except.error ("invalid compression: '" ++ c ++ "'")

/-- Externally visible actions of the subsystem, in program order. -/
inductive Effect where
  /-- `this.reportState({state, extra?, progress?, timeout?})` (the throttled
  status publication). -/
  | reportState (st : String) (extra : Option String) (progress : Option ℚ)
      (timeout : Option ℚ)
  /-- `apiCall("v2/compute/get-detailed-state", ...)`. -/
  | getDetailedState
  /-- `mkdir(path, {recursive: true})` (`makeScratchDir`). -/
  | mkdirRec (path : String)
  /-- `writeFile(path, content)` with a plain string payload. -/
  | writeFile (path : String) (content : String)
  /-- `writeFile(join(this.lower, computeStateJson), toCompressedJSON(computeState))`. -/
  | writeState (path : String) (state : List (String × Int))
  /-- `api.syncFS({computeStateJson, exclude, compute_server_id, now})`. -/
  | apiSyncFS (computeStateJson : String) (exclude : List String)
  /-- `remove(paths, rel)` from `./util`: delete the listed paths under `rel`. -/
  | removeFiles (paths : List String) (rel : String)
  /-- `this.tar.send({createArgs, extractArgs})`. -/
  | tarSend (createArgs : List String) (extractArgs : List String)
  /-- `this.tar.get({createArgs, extractArgs})`. -/
  | tarGet (createArgs : List String) (extractArgs : List String)
  /-- `mkdirp(path)`. -/
  | mkdirp (path : String)
  /-- `execa("sudo", ["mount", "--bind", source, target])`. -/
  | bindMount (source : String) (target : String)
  /-- `execa("sudo", ["umount", target])`. -/
  | unmountPath (target : String)
  /-- `execa("fusermount", ["-uz", mount])`. -/
  | fusermount (mount : String)
  /-- `rename(src, dst)`. -/
  | renameFile (src : String) (dst : String)
  /-- `copyFile(src, dst)`. -/
  | copyFileFS (src : String) (dst : String)
  /-- `rm(path)`. -/
  | rmFile (path : String)
deriving DecidableEq, Repr

/-! ### Tree scanner (`getComputeState`)

`mtimeDirTree` (an external collaborator from `./util`) returns a JS object
`{[path]: mtime}`; we model its result as an association list with distinct
keys, looked up and updated with JS-object semantics (`alookup` finds the
unique binding, `upsert` overwrites in place or appends). -/

/-- JS object read `m[k]`. -/
def alookup : List (String × Int) → String → Option Int
  | [], _ => none
  | (k0, v0) :: rest, k => if k = k0 then some v0 else alookup rest k

/-- JS object write `m[k] = v`: overwrite the binding in place if present,
append otherwise. -/
def upsert : List (String × Int) → String → Int → List (String × Int)
  | [], k, v => [(k, v)]
  | (k0, v0) :: rest, k, v =>
      if k = k0 then (k, v) :: rest else (k0, v0) :: upsert rest k v

/-- The fixed whiteout suffix `"_HIDDEN~"`, as a character list; `whiteLen =
"_HIDDEN~".length = 8`. -/
def WHITEOUT : List Char := "_HIDDEN~".data

/-- `path.endsWith("_HIDDEN~")`, on the underlying character list. -/
def isWhiteout (s : String) : Bool := WHITEOUT.isSuffixOf s.data

/-- `path.slice(0, -whiteLen)`: the path with the 8-character whiteout suffix
removed. -/
def stripWhiteout (s : String) : String := ⟨s.data.take (s.data.length - 8)⟩

/-- The `for (const path in mtimes)` loop of `getComputeState`: walk the
whiteout-directory scan result, and for every marker entry record the marker
path (and, when the marker is a directory, also the unsuffixed path) in
`whiteouts`, and set `computeState[p] = -mtime` for the unsuffixed path `p`.
`isDir path` models `(await stat(join(unionfs, path))).isDirectory()`. -/
def whiteoutLoop (isDir : String → Bool) :
    List (String × Int) → List (String × Int) → List String →
    List (String × Int) × List String
  | [], cs, w => (cs, w)
  | (path, mtime) :: rest, cs, w =>
      if isWhiteout path then
        let p := stripWhiteout path
        whiteoutLoop isDir rest (upsert cs p (-mtime))
          (w ++ [path] ++ (if isDir path then [p] else []))
      else
        whiteoutLoop isDir rest cs w

/-- `getComputeState`: start from the upper-layer scan
(`mtimeDirTree({path: this.upper, exclude: this.exclude})`, an input here),
then fold the whiteout-directory scan
(`mtimeDirTree({path: join(this.upper, UNIONFS), exclude: []})`) through the
marker loop.  Returns `{computeState, whiteouts}`. -/
def getComputeState (upperState : List (String × Int))
    (unionMtimes : List (String × Int)) (isDir : String → Bool) :
    List (String × Int) × List String :=
  whiteoutLoop isDir unionMtimes upperState []

/-! ### The sync cycle (`__doSync`, `sendFiles`, `receiveFiles`,
`updateReadTracking`) -/

/-- The `api.syncFS` response `{removeFromCompute, copyFromCompute,
copyFromProjectTar}`; each field may be absent (`none`). -/
structure SyncFSResponse where
  removeFromCompute : Option (List String)
  copyFromCompute : Option (List String)
  copyFromProjectTar : Option String

/-- Truthiness of `xs?.length ?? 0 > 0` (which JS parses as
`xs?.length ?? (0 > 0)`): `undefined` gives `false`; otherwise the length,
which is truthy exactly when nonzero. -/
def jsLenCond : Option (List String) → Bool
  | none => false
  | some l => l.length ≠ 0

/-- Truthiness of `if (copyFromProjectTar)`: a string is truthy iff nonempty. -/
def jsStrCond : Option String → Bool
  | none => false
  | some s => s ≠ ""

/-- The collaborator results and scheduling facts consumed by one sync
cycle: the two `mtimeDirTree` scans and the directory test (tree scanner
inputs), the `api.syncFS` response, whether the read-tracking file rename
succeeded, whether some await in the cycle body threw (`fail = some msg`
with the thrown `err.message`), and whether `close()` ran during the cycle. -/
structure SyncInput where
  upperState : List (String × Int)
  unionMtimes : List (String × Int)
  isDir : String → Bool
  resp : SyncFSResponse
  moveOk : Bool
  fail : Option String
  closedDuring : Bool

/-- `join(".compute-servers", `${id}`, "compute-state.json.lz4")`. -/
def computeStateJsonPath (cfg : Config) : String :=
  pjoin ".compute-servers"
    (pjoin (toString cfg.compute_server_id) "compute-state.json.lz4")

/-- The `createArgs` built by `sendFiles`, `receiveFiles` and
`updateReadTracking` around a null-delimited file list. -/
def filesFromArgs (target : String) : List String :=
  ["-c", "--null", "--no-recursion", "--verbatim-files-from", "--files-from",
    target]

/-- `sendFiles(files)`: write the null-joined manifest to
`<scratch>/copy-to-project`, then `tar.send` with the `--files-from`
discipline and `--delay-directory-restore -x` extraction. -/
def sendFilesEffects (cfg : Config) (files : List String) : List Effect :=
  let target := pjoin (scratch cfg) "copy-to-project"
  [Effect.writeFile target (String.intercalate "\x00" files),
    Effect.tarSend (filesFromArgs target) ["--delay-directory-restore", "-x"]]

/-- `receiveFiles(pathToFileList)`: one `tar.get` with the `--files-from`
discipline and `--delay-directory-restore -x` extraction. -/
def receiveFilesEffects (pathToFileList : String) : List Effect :=
  [Effect.tarGet (filesFromArgs pathToFileList)
    ["--delay-directory-restore", "-x"]]

/-- `join(".compute-servers", `${id}`, "read-tracking")`. -/
def readTrackingOnProject (cfg : Config) : String :=
  pjoin ".compute-servers" (pjoin (toString cfg.compute_server_id) "read-tracking")

/-- `dirname(p)` for the slash-joined strings used here. -/
def dirnameStr (p : String) : String :=
  String.intercalate "/" (p.splitOn "/").dropLast

/-- `basename(p)`. -/
def basenameStr (p : String) : String := (p.splitOn "/").getLastD p

/-- `updateReadTracking()`: nothing when no tracking file is configured;
otherwise report progress 80, move the tracking file into the project
(rename to a temp file, copy across devices, delete the temp — `moveOk`
models whether the initial rename succeeded; on failure the error is logged
and the transfer is skipped), `tar.get` the tracked files with
`--keep-newer-files`, and in all cases report progress 85 from the `finally`
block. -/
def updateReadTrackingEffects (cfg : Config) (moveOk : Bool) : List Effect :=
  match cfg.readTrackingFile with
  | none => []
  | some f =>
      let tmp := pjoin (dirnameStr f) ("." ++ basenameStr f ++ ".tmp")
      [Effect.reportState "cache-files-from-project" none (some 80) none] ++
      (if moveOk then
        [Effect.renameFile f tmp,
          Effect.copyFileFS tmp (pjoin cfg.lower (readTrackingOnProject cfg)),
          Effect.rmFile tmp,
          Effect.tarGet (filesFromArgs (readTrackingOnProject cfg))
            ["--keep-newer-files", "-x"]]
      else []) ++
      [Effect.reportState "cache-files-from-project" none (some 85) none]

/-- Whether this cycle "did work" (`isActive` in `__doSync`): some whiteout
was removed, some remote-requested removal ran, some push ran, or some pull
ran. -/
def cycleIsActive (inp : SyncInput) : Bool :=
  ((getComputeState inp.upperState inp.unionMtimes inp.isDir).2.length ≠ 0)
    || jsLenCond inp.resp.removeFromCompute
    || jsLenCond inp.resp.copyFromCompute
    || jsStrCond inp.resp.copyFromProjectTar

/-- The adaptive-interval update at the end of `__doSync`: reset to the
configured minimum after an active cycle, otherwise grow by 1.3× capped at
the configured maximum. -/
def updateIntervalAfterCycle (cfg : Config) (i : ℚ) (isActive : Bool) : ℚ :=
  if isActive then cfg.syncIntervalMin
  else min cfg.syncIntervalMax ((13 / 10 : ℚ) * i)

/-- `__doSync()`, on the path where every await succeeds: the ordered effect
trace and the updated `this.syncInterval`.  `i` is the incoming
`this.syncInterval`. -/
def doSyncEffects (cfg : Config) (i : ℚ) (inp : SyncInput) :
    List Effect × ℚ :=
  let gcs := getComputeState inp.upperState inp.unionMtimes inp.isDir
  let computeState := gcs.1
  let whiteouts := gcs.2
  let eff :=
    [Effect.reportState "get-compute-state" none (some 0) (some 10),
      Effect.mkdirRec (scratch cfg),
      Effect.writeState (pjoin cfg.lower (computeStateJsonPath cfg)) computeState,
      Effect.reportState "send-state-to-project" none (some 20) (some 10),
      Effect.apiSyncFS (computeStateJsonPath cfg) cfg.exclude] ++
    (if whiteouts.length ≠ 0 then
      [Effect.removeFiles whiteouts (pjoin cfg.upper UNIONFS)] else []) ++
    (if jsLenCond inp.resp.removeFromCompute then
      [Effect.removeFiles (inp.resp.removeFromCompute.getD []) cfg.upper]
    else []) ++
    (if jsLenCond inp.resp.copyFromCompute then
      Effect.reportState
        ("send-" ++ toString (inp.resp.copyFromCompute.getD []).length ++
          "-files-to-project") none (some 50) none ::
        sendFilesEffects cfg (inp.resp.copyFromCompute.getD [])
    else []) ++
    (if jsStrCond inp.resp.copyFromProjectTar then
      Effect.reportState "receive-files-from-project" none (some 70) none ::
        receiveFilesEffects (inp.resp.copyFromProjectTar.getD "")
    else []) ++
    updateReadTrackingEffects cfg inp.moveOk
  (eff, updateIntervalAfterCycle cfg i (cycleIsActive inp))

/-! ### `sync()` and the scheduler loop -/

/-- Outcome of one `sync()` invocation: the updated instance fields, the
ordered effect trace, and `Except.error msg` when the call throws (with the
thrown `Error`'s message). -/
structure SyncResult where
  fs : FS
  effects : List Effect
  result : Except String Unit
deriving Repr

/-- The truncated summary message `sync()` builds in its `catch` block from
`err.message` (`msg`) after incrementing `this.numFails` to `nf`. -/
def failExtra (nf : Nat) (msg : String) : String :=
  if MAX_FAILURES_IN_A_ROW ≤ nf then
    "Sync failed " ++ toString MAX_FAILURES_IN_A_ROW ++
      " in a row.  FIX THE PROBLEM, THEN CLEAR THIS ERROR TO RESUME SYNC. -- "
      ++ msg.take 250
  else
    "Sync failed " ++ toString nf ++ " times in a row with -- " ++
      msg.take 200 ++ "..."

/-- `public sync()`.  If a cycle is already in progress, or the state is not
`ready`, it throws before the `try` block, with no side effect.  Otherwise
`state` is set to `sync` and `__doSync` runs: on success `numFails` is reset
to 0; on a thrown error `numFails` is incremented, the truncated summary is
reported as an `error` status, written to `error.txt`, and re-thrown.  The
`finally` block reports `ready` and restores `state := "ready"` unless
`close()` flipped the state to `closed` during the cycle. -/
def syncOp (cfg : Config) (fs : FS) (inp : SyncInput) : SyncResult :=
  if fs.state = State.sync then
    ⟨fs, [], Except.error "sync currently in progress"⟩
  else if fs.state ≠ State.ready then
    ⟨fs, [],
      Except.error
        ("can only sync when state is ready but state is \"" ++
          stateStr fs.state ++ "\"")⟩
  else
    match inp.fail with
    | none =>
        let r := doSyncEffects cfg fs.syncInterval inp
        if inp.closedDuring then
          ⟨⟨State.closed, 0, r.2⟩, r.1, Except.ok ()⟩
        else
          ⟨⟨State.ready, 0, r.2⟩,
            r.1 ++
              [Effect.reportState "ready" none (some 100) (some (3 + r.2))],
            Except.ok ()⟩
    | some msg =>
        let nf := fs.numFails + 1
        let extra := failExtra nf msg
        let effErr :=
          [Effect.reportState "error" (some extra) (some 0) (some 60),
            Effect.writeFile (error_txt cfg) extra]
        if inp.closedDuring then
          ⟨⟨State.closed, nf, fs.syncInterval⟩, effErr, Except.error extra⟩
        else
          ⟨⟨State.ready, nf, fs.syncInterval⟩,
            effErr ++
              [Effect.reportState "ready" none (some 100)
                (some (3 + fs.syncInterval))],
            Except.error extra⟩

/-- The record read back by `getDetailedState`
(`apiCall("v2/compute/get-detailed-state", ...)`); `extra` may be absent or
empty. -/
structure DetailedState where
  dstate : String
  extra : Option String
deriving DecidableEq, Repr

/-- Truthiness of `detailedState && (!detailedState.extra ||
detailedState.state != "error")`: the circuit breaker resumes when a status
record exists whose `extra` field is falsy (absent or empty) or whose state
is not `"error"`. -/
def errorCleared : Option DetailedState → Bool
  | none => false
  | some d => d.extra.getD "" = "" || d.dstate ≠ "error"

/-- The backoff applied by the loop's `catch`: `this.syncInterval =
Math.min(this.syncIntervalMax, 1.5 * this.syncInterval)`. -/
def backoffOnError (cfg : Config) (i : ℚ) : ℚ :=
  min cfg.syncIntervalMax ((3 / 2 : ℚ) * i)

/-- The wait (milliseconds) before rescheduling:
`Math.min(this.syncIntervalMax * 1000, this.syncInterval * 1000 +
(Date.now() - t0))`. -/
def waitFor (cfg : Config) (i elapsed : ℚ) : ℚ :=
  min (cfg.syncIntervalMax * 1000) (i * 1000 + elapsed)

/-- Result of one `syncLoop` tick: updated fields, effect trace, and the
`setTimeout` delay (ms) used to reschedule. -/
structure TickResult where
  fs : FS
  effects : List Effect
  wait : ℚ
deriving Repr

/-- One iteration of `syncLoop()`.  If `exclude` contains `"~"` or `"."`,
sync is disabled: sleep a fixed 60 s and do nothing.  Otherwise, when
`state` is `ready`: with `numFails ≥ MAX_FAILURES_IN_A_ROW` the tick only
reads the detailed status and either resumes (`numFails := 0`, then
`sync()`) when the error was cleared or stays paused; below the threshold it
just runs `sync()`.  A throw from `sync()` is caught and answered with the
1.5× interval backoff.  When `state` is not `ready` the tick skips.  The
rescheduling delay is `waitFor` over the elapsed cycle time. -/
def syncLoopTick (cfg : Config) (fs : FS) (ds : Option DetailedState)
    (inp : SyncInput) (elapsed : ℚ) : TickResult :=
  if cfg.exclude.contains "~" || cfg.exclude.contains "." then
    ⟨fs, [], 1000 * 60⟩
  else if fs.state = State.ready then
    if MAX_FAILURES_IN_A_ROW ≤ fs.numFails then
      if errorCleared ds then
        let r := syncOp cfg { fs with numFails := 0 } inp
        let fs' :=
          match r.result with
          | Except.ok _ => r.fs
          | Except.error _ =>
              { r.fs with syncInterval := backoffOnError cfg r.fs.syncInterval }
        ⟨fs', Effect.getDetailedState :: r.effects,
          waitFor cfg fs'.syncInterval elapsed⟩
      else
        ⟨fs, [Effect.getDetailedState], waitFor cfg fs.syncInterval elapsed⟩
    else
      let r := syncOp cfg fs inp
      let fs' :=
        match r.result with
        | Except.ok _ => r.fs
        | Except.error _ =>
            { r.fs with syncInterval := backoffOnError cfg r.fs.syncInterval }
      ⟨fs', r.effects, waitFor cfg fs'.syncInterval elapsed⟩
  else
    ⟨fs, [], waitFor cfg fs.syncInterval elapsed⟩

/-! ### Overlay mount manager and `close()` -/

/-- `shouldMountExclude(path)`: a bare directory name — truthy (nonempty),
not a dotfile (`path.startsWith(".")`), not absolute
(`path.startsWith("/")`), not `"~"`, and containing no slash
(`path.includes("/")`).  The prefix and containment tests are expressed on
the underlying character list. -/
def shouldMountExclude (path : String) : Bool :=
  path ≠ "" && !(['.'].isPrefixOf path.data) && !(['/'].isPrefixOf path.data) &&
    path ≠ "~" && !path.data.contains '/'

/-- `bindMountExcludes()`: for every excluded entry that passes
`shouldMountExclude`, create the backing and upper directories and bind-mount
the backing directory over the merged view. -/
def bindMountExcludes (cfg : Config) : List Effect :=
  cfg.exclude.flatMap fun path =>
    if shouldMountExclude path then
      [Effect.mkdirp (pjoin cfg.data path),
        Effect.mkdirp (pjoin cfg.upper path),
        Effect.bindMount (pjoin cfg.data path) (pjoin cfg.mount path)]
    else []

/-- `unmountExcludes()`: best-effort unmount of each bind target. -/
def unmountExcludesEffects (cfg : Config) : List Effect :=
  cfg.exclude.flatMap fun path =>
    if shouldMountExclude path then [Effect.unmountPath (pjoin cfg.mount path)]
    else []

/-- `close()`: a no-op when already closed; otherwise set `state := closed`,
cancel the timer, lazily unmount the fuse mount and the excluded binds
(best-effort), and detach the websocket listener. -/
def closeOp (cfg : Config) (fs : FS) : FS × List Effect :=
  if fs.state = State.closed then (fs, [])
  else
    ({ fs with state := State.closed },
      Effect.fusermount cfg.mount :: unmountExcludesEffects cfg)

/-! ### Effect classifiers and concrete fixtures used by witnesses -/

/-- The removal/transfer actions of a cycle (the claims about side-effect
ordering quantify over these, ignoring status reports and bookkeeping
writes). -/
def isTransferOp : Effect → Bool
  | Effect.removeFiles _ _ => true
  | Effect.tarSend _ _ => true
  | Effect.tarGet _ _ => true
  | _ => false

/-- Just the `tar.get` (pull) actions. -/
def isTarGet : Effect → Bool
  | Effect.tarGet _ _ => true
  | _ => false

/-- Just the removal and `tar.send` (push) actions. -/
def isRemoveOrSend : Effect → Bool
  | Effect.removeFiles _ _ => true
  | Effect.tarSend _ _ => true
  | _ => false

/-- A concrete configuration for witness instantiations. -/
def cfgA : Config := ⟨"/home/user", "/upper", "/merged", "/data", 7, 10, 30, [], none⟩

/-- A concrete configuration whose exclude list contains `"~"` together with
an ordinary bare-name entry. -/
def cfgTilde : Config :=
  ⟨"/home/user", "/upper", "/merged", "/data", 7, 10, 30, ["~", "scratch"], none⟩

/-- A concrete quiet cycle input (empty `api.syncFS` response, no whiteouts,
no failure). -/
def inpA : SyncInput :=
  ⟨[("foo.txt", 100)], [], fun _ => false, ⟨none, none, none⟩, false, none, false⟩

/-- A concrete busy cycle input: one whiteout marker, one remote removal,
one push, one pull. -/
def inpFull : SyncInput :=
  ⟨[("p.txt", 9)], [("w_HIDDEN~", 5)], fun _ => false,
    ⟨some ["r.txt"], some ["p.txt"], some "man"⟩, false, none, false⟩

/-! ### Claim theorems -/

/-- C1: invoking `sync()` while `this.state == "sync"` throws
`Error("sync currently in progress")` before entering the `try` block, so
the effect trace is empty (no API call, no state write, no transfer) and
the instance fields — in particular `state` and `numFails` — are returned
unchanged. -/
theorem sync_in_progress_rejected (cfg : Config) (fs : FS) (inp : SyncInput)
    (h : fs.state = State.sync) :
    syncOp cfg fs inp = ⟨fs, [], Except.error "sync currently in progress"⟩ := by
  simp [syncOp, h]

/-- Witness for C1 at a concrete mid-sync instance. -/
theorem sync_in_progress_rejected_witness :
    syncOp cfgA ⟨State.sync, 2, 10⟩ inpA =
      ⟨⟨State.sync, 2, 10⟩, [], Except.error "sync currently in progress"⟩ :=
  sync_in_progress_rejected cfgA ⟨State.sync, 2, 10⟩ inpA rfl

/-- C9: the constructor's compression handling.  An explicitly falsy
`compression` (the empty string, the only falsy string value) installs the
tar primitives unmodified; an omitted `compression` defaults to `"lz4"`, and
`"lz4"` wraps both `send` and `get` so that `["-I", "lz4"]` is prepended to
both the create and the extract argument lists; any other truthy value makes
the constructor throw `invalid compression: '<value>'` instead of silently
defaulting. -/
theorem compression_validation :
    constructorTar (some "") = Except.ok id ∧
    constructorTar none = Except.ok lz4Wrap ∧
    constructorTar (some "lz4") = Except.ok lz4Wrap ∧
    (∀ t : TarCall,
      lz4Wrap t =
        ⟨"-I" :: "lz4" :: t.createArgs, "-I" :: "lz4" :: t.extractArgs⟩) ∧
    (∀ c : String, c ≠ "" → c ≠ "lz4" →
      constructorTar (some c) =
        Except.error ("invalid compression: '" ++ c ++ "'")) := by
  refine ⟨rfl, rfl, rfl, fun t => rfl, fun c h1 h2 => ?_⟩
  simp [constructorTar, h1, h2]

/-- Witness for C9 at the concrete rejected value `"gzip"`. -/
theorem compression_validation_witness :
    constructorTar (some "gzip") =
      Except.error ("invalid compression: '" ++ "gzip" ++ "'") :=
  compression_validation.2.2.2.2 "gzip" (by decide) (by decide)

/-- C10: an invocation of `sync()` that is not rejected by the
in-progress guard never terminates with `state` left as `"sync"`: from
`ready` the `finally` block restores `state := "ready"` unless `close()` ran
during the cycle, in which case the state remains `closed`; and once the
state is `closed` it is absorbing — `sync()` throws without touching the
fields, `close()` returns immediately with no effect, and a loop tick skips
and leaves the fields unchanged. -/
theorem sync_restores_state (cfg : Config) (fs : FS) (ds : Option DetailedState)
    (inp : SyncInput) (elapsed : ℚ) (h : fs.state ≠ State.sync) :
    (syncOp cfg fs inp).fs.state ≠ State.sync ∧
    (fs.state = State.ready →
      (syncOp cfg fs inp).fs.state =
        (if inp.closedDuring then State.closed else State.ready)) ∧
    (fs.state = State.closed →
      (syncOp cfg fs inp).fs = fs ∧ closeOp cfg fs = (fs, []) ∧
      (syncLoopTick cfg fs ds inp elapsed).fs = fs) := by
  refine ⟨?_, ?_, ?_⟩
  · cases hs : fs.state <;>
      simp [syncOp, hs] <;>
      cases hf : inp.fail <;>
      cases hc : inp.closedDuring <;>
      simp_all [syncOp]
  · intro hs
    cases hf : inp.fail <;> cases hc : inp.closedDuring <;>
      simp_all [syncOp]
  · intro hs
    refine ⟨by simp [syncOp, hs], by simp [closeOp, hs], ?_⟩
    unfold syncLoopTick
    split
    · rfl
    · rw [if_neg (by simp [hs])]

/-- Witness for C10 at a concrete closed instance. -/
theorem sync_restores_state_witness :
    (syncOp cfgA ⟨State.closed, 0, 10⟩ inpA).fs = ⟨State.closed, 0, 10⟩ ∧
    closeOp cfgA ⟨State.closed, 0, 10⟩ = (⟨State.closed, 0, 10⟩, []) ∧
    (syncLoopTick cfgA ⟨State.closed, 0, 10⟩ none inpA 5).fs =
      ⟨State.closed, 0, 10⟩ :=
  (sync_restores_state cfgA ⟨State.closed, 0, 10⟩ none inpA 5 (by decide)).2.2 rfl

/-- C4 counterexample: with `exclude = ["~", "scratch"]` the claim asserts
that no bind mount and no bind unmount is performed for the other excluded
entry `"scratch"`, but both halves fail — `bindMountExcludes` (called
unconditionally from `init`) iterates over the whole exclude list and does
bind-mount `/data/scratch` over `/merged/scratch`, and `unmountExcludes`
(run by `close()`, whose effect list it joins when the instance is not yet
closed) does attempt `umount /merged/scratch` — the `"~"` entry only
disables the sync loop, not the bind mount/unmount handling. -/
theorem exclude_tilde_bind_mount_cex :
    "~" ∈ cfgTilde.exclude ∧
    Effect.bindMount "/data/scratch" "/merged/scratch" ∈
      bindMountExcludes cfgTilde ∧
    Effect.unmountPath "/merged/scratch" ∈ unmountExcludesEffects cfgTilde ∧
    Effect.unmountPath "/merged/scratch" ∈
      (closeOp cfgTilde ⟨State.ready, 0, 10⟩).2 := by
  refine ⟨by simp [cfgTilde], ?_, ?_, ?_⟩
  · simp only [bindMountExcludes, cfgTilde, List.mem_flatMap]
    exact ⟨"scratch", by simp, by simp [shouldMountExclude, pjoin, String.data]; decide⟩
  · simp only [unmountExcludesEffects, cfgTilde, List.mem_flatMap]
    exact ⟨"scratch", by simp, by simp [shouldMountExclude, pjoin, String.data]; decide⟩
  · rw [closeOp, if_neg (by decide)]
    apply List.mem_cons_of_mem
    simp only [unmountExcludesEffects, cfgTilde, List.mem_flatMap]
    exact ⟨"scratch", by simp, by simp [shouldMountExclude, pjoin, String.data]; decide⟩

/-- C4 (amended): if the exclude list contains the literal entry `"~"` or
`"."`, then no sync cycle is ever attempted — every tick of `syncLoop`
returns immediately, performing no API or transfer call, leaving the fields
unchanged, and rescheduling itself on the fixed 60-second period
(`1000 * 60` ms); however, bind mounts are still performed at `init` for
every other excluded entry that passes `shouldMountExclude`, and the bind
unmount for each such entry is still attempted by `close()` on a not-yet-
closed instance (the claim's further assertion that those mounts and
unmounts are skipped does not hold). -/
theorem exclude_tilde_disables_sync (cfg : Config) (fs : FS)
    (ds : Option DetailedState) (inp : SyncInput) (elapsed : ℚ)
    (h : "~" ∈ cfg.exclude ∨ "." ∈ cfg.exclude) :
    syncLoopTick cfg fs ds inp elapsed = ⟨fs, [], 1000 * 60⟩ ∧
    ∀ p ∈ cfg.exclude, shouldMountExclude p = true →
      Effect.bindMount (pjoin cfg.data p) (pjoin cfg.mount p) ∈
        bindMountExcludes cfg ∧
      Effect.unmountPath (pjoin cfg.mount p) ∈ unmountExcludesEffects cfg ∧
      (fs.state ≠ State.closed →
        Effect.unmountPath (pjoin cfg.mount p) ∈ (closeOp cfg fs).2) := by
  constructor
  · have hc : (cfg.exclude.contains "~" || cfg.exclude.contains ".") = true := by
      simpa using h
    unfold syncLoopTick
    rw [if_pos hc]
  · intro p hp hm
    have hun : Effect.unmountPath (pjoin cfg.mount p) ∈
        unmountExcludesEffects cfg := by
      simp only [unmountExcludesEffects, List.mem_flatMap]
      exact ⟨p, hp, by simp [hm]⟩
    refine ⟨?_, hun, ?_⟩
    · simp only [bindMountExcludes, List.mem_flatMap]
      exact ⟨p, hp, by simp [hm]⟩
    · intro hcl
      rw [closeOp, if_neg hcl]
      exact List.mem_cons_of_mem _ hun

/-- Witness for C4 (amended) at `exclude = ["~", "scratch"]`: the tick
sleeps 60 s doing nothing, while the bind mount for `"scratch"` is still
made at `init` and its bind unmount is still attempted by `close()`. -/
theorem exclude_tilde_disables_sync_witness :
    syncLoopTick cfgTilde ⟨State.ready, 0, 10⟩ none inpA 5 =
      ⟨⟨State.ready, 0, 10⟩, [], 1000 * 60⟩ ∧
    Effect.bindMount (pjoin cfgTilde.data "scratch")
        (pjoin cfgTilde.mount "scratch") ∈ bindMountExcludes cfgTilde ∧
    Effect.unmountPath (pjoin cfgTilde.mount "scratch") ∈
      (closeOp cfgTilde ⟨State.ready, 0, 10⟩).2 := by
  have h := exclude_tilde_disables_sync cfgTilde ⟨State.ready, 0, 10⟩ none inpA 5
    (Or.inl (by simp [cfgTilde]))
  have h2 := h.2 "scratch" (by simp [cfgTilde]) (by decide)
  exact ⟨h.1, h2.1, h2.2.2 (by decide)⟩

/-- C3 counterexample: on a cycle with a whiteout, a remote removal, a push
list and a pull manifest, the trace contains the push (`tar.send` from
`sendFiles`, driven by `copyFromCompute`) strictly before the pull
(`tar.get` from `receiveFiles`, driven by `copyFromProjectTar`) — the claim
asserts pulls happen before pushes, which is false. -/
theorem doSync_pull_before_push_cex :
    Effect.tarSend (filesFromArgs (pjoin (scratch cfgA) "copy-to-project"))
        ["--delay-directory-restore", "-x"] ∈ (doSyncEffects cfgA 10 inpFull).1 ∧
    Effect.tarGet (filesFromArgs "man") ["--delay-directory-restore", "-x"] ∈
      (doSyncEffects cfgA 10 inpFull).1 ∧
    (doSyncEffects cfgA 10 inpFull).1.indexOf
        (Effect.tarSend (filesFromArgs (pjoin (scratch cfgA) "copy-to-project"))
          ["--delay-directory-restore", "-x"]) <
      (doSyncEffects cfgA 10 inpFull).1.indexOf
        (Effect.tarGet (filesFromArgs "man") ["--delay-directory-restore", "-x"]) := by
  refine ⟨by decide, by decide, by decide⟩

/-- C3 (amended): in every sync cycle the removal/transfer side effects
occur in this order — whiteout-driven removals against the local upper
layer first, then remote-driven removals (`removeFromCompute`), then pushes
to the project (`copyFromCompute`, via `tar.send`), then pulls from the
project (`copyFromProjectTar`, via `tar.get`).  The claim's ordering of
pulls before pushes is swapped relative to the code.  Stated as: the
projection of the cycle trace onto removal/transfer operations is exactly
the concatenation of the four (possibly empty) phases in that order. -/
theorem doSync_transfer_order (cfg : Config) (i : ℚ) (inp : SyncInput)
    (hrt : cfg.readTrackingFile = none) :
    (doSyncEffects cfg i inp).1.filter isTransferOp =
      (if (getComputeState inp.upperState inp.unionMtimes inp.isDir).2.length ≠ 0 then
        [Effect.removeFiles (getComputeState inp.upperState inp.unionMtimes inp.isDir).2
          (pjoin cfg.upper UNIONFS)]
      else []) ++
      (if jsLenCond inp.resp.removeFromCompute then
        [Effect.removeFiles (inp.resp.removeFromCompute.getD []) cfg.upper]
      else []) ++
      (if jsLenCond inp.resp.copyFromCompute then
        [Effect.tarSend (filesFromArgs (pjoin (scratch cfg) "copy-to-project"))
          ["--delay-directory-restore", "-x"]]
      else []) ++
      (if jsStrCond inp.resp.copyFromProjectTar then
        [Effect.tarGet (filesFromArgs (inp.resp.copyFromProjectTar.getD ""))
          ["--delay-directory-restore", "-x"]]
      else []) := by
  simp only [doSyncEffects, sendFilesEffects, receiveFilesEffects,
    updateReadTrackingEffects, hrt, List.filter_append]
  split_ifs <;> simp [isTransferOp]

/-- Witness for C3 (amended) on the concrete busy cycle: all four phases
present, in removal-removal-push-pull order. -/
theorem doSync_transfer_order_witness :
    (doSyncEffects cfgA 10 inpFull).1.filter isTransferOp =
      [Effect.removeFiles ["w_HIDDEN~"] (pjoin cfgA.upper UNIONFS),
        Effect.removeFiles ["r.txt"] cfgA.upper,
        Effect.tarSend (filesFromArgs (pjoin (scratch cfgA) "copy-to-project"))
          ["--delay-directory-restore", "-x"],
        Effect.tarGet (filesFromArgs "man") ["--delay-directory-restore", "-x"]] :=
  (doSync_transfer_order cfgA 10 inpFull rfl).trans (by decide)

/-- C5: the adaptive interval policy.  (a) A cycle that did no work grows
`syncInterval` by 1.3× capped at `syncIntervalMax`, and a cycle that did
work resets it to `syncIntervalMin` — exactly the value `__doSync` stores;
(b) both cycle updates keep the interval within
`[syncIntervalMin, syncIntervalMax]`; (c) so does the 1.5× error backoff;
(d) a thrown error during the loop's cycle invocation multiplies the
interval by 1.5 capped at the maximum; (e) the wait before the next tick is
`min(syncIntervalMax·1000, syncInterval·1000 + elapsed)` milliseconds,
computed from the post-update interval. -/
theorem adaptive_interval_policy (cfg : Config) (fs : FS)
    (ds : Option DetailedState) (inp : SyncInput) (elapsed : ℚ)
    (h0 : 0 ≤ cfg.syncIntervalMin)
    (hmm : cfg.syncIntervalMin ≤ cfg.syncIntervalMax)
    (hlo : cfg.syncIntervalMin ≤ fs.syncInterval)
    (_hhi : fs.syncInterval ≤ cfg.syncIntervalMax)
    (hex : (cfg.exclude.contains "~" || cfg.exclude.contains ".") = false)
    (hready : fs.state = State.ready) :
    (doSyncEffects cfg fs.syncInterval inp).2 =
      (if cycleIsActive inp then cfg.syncIntervalMin
       else min cfg.syncIntervalMax ((13 / 10 : ℚ) * fs.syncInterval)) ∧
    (∀ b : Bool,
      cfg.syncIntervalMin ≤ updateIntervalAfterCycle cfg fs.syncInterval b ∧
      updateIntervalAfterCycle cfg fs.syncInterval b ≤ cfg.syncIntervalMax) ∧
    (cfg.syncIntervalMin ≤ backoffOnError cfg fs.syncInterval ∧
      backoffOnError cfg fs.syncInterval ≤ cfg.syncIntervalMax) ∧
    (fs.numFails < MAX_FAILURES_IN_A_ROW → ∀ msg, inp.fail = some msg →
      ((syncLoopTick cfg fs ds inp elapsed).fs).syncInterval =
        min cfg.syncIntervalMax ((3 / 2 : ℚ) * fs.syncInterval)) ∧
    (syncLoopTick cfg fs ds inp elapsed).wait =
      min (cfg.syncIntervalMax * 1000)
        (((syncLoopTick cfg fs ds inp elapsed).fs).syncInterval * 1000 + elapsed) := by
  have hi0 : (0 : ℚ) ≤ fs.syncInterval := h0.trans hlo
  have h13 : fs.syncInterval ≤ (13 / 10 : ℚ) * fs.syncInterval := by linarith
  have h32 : fs.syncInterval ≤ (3 / 2 : ℚ) * fs.syncInterval := by linarith
  refine ⟨rfl, ?_, ?_, ?_, ?_⟩
  · intro b
    cases b
    · exact ⟨le_min hmm (hlo.trans h13),
        by simp [updateIntervalAfterCycle, min_le_left]⟩
    · exact ⟨le_refl _ |>.trans (by simp [updateIntervalAfterCycle]), by
        simp [updateIntervalAfterCycle, hmm]⟩
  · exact ⟨le_min hmm (hlo.trans h32), min_le_left _ _⟩
  · intro hnf msg hfail
    have hn : ¬ (MAX_FAILURES_IN_A_ROW ≤ fs.numFails) := by omega
    unfold syncLoopTick
    rw [if_neg (by simpa using hex), if_pos hready, if_neg hn]
    cases hc : inp.closedDuring <;>
      simp [syncOp, hready, hfail, hc, backoffOnError]
  · unfold syncLoopTick
    rw [if_neg (by simpa using hex)]
    split_ifs <;> rfl

/-- Witness for C5 at a concrete no-work failing-free instance. -/
theorem adaptive_interval_policy_witness :
    (doSyncEffects cfgA 20 inpA).2 = min 30 ((13 / 10 : ℚ) * 20) ∧
    (syncLoopTick cfgA ⟨State.ready, 0, 20⟩ none
      { inpA with fail := some "boom" } 7).fs.syncInterval =
        min 30 ((3 / 2 : ℚ) * 20) := by
  have h := adaptive_interval_policy cfgA ⟨State.ready, 0, 20⟩ none
    { inpA with fail := some "boom" } 7 (by norm_num [cfgA]) (by norm_num [cfgA])
    (by norm_num [cfgA]) (by norm_num [cfgA]) (by decide) rfl
  refine ⟨?_, ?_⟩
  · have h1 := h.1
    simpa [cfgA, cycleIsActive, inpA, getComputeState, whiteoutLoop, jsLenCond,
      jsStrCond] using h1
  · simpa [cfgA] using h.2.2.2.1 (by decide) "boom" rfl

/-- C8: a cycle-body exception with message `msg` is caught by `sync()`:
`numFails` is incremented; the status reported is `error` with the summary
`failExtra`, which embeds `msg` truncated to its first 200 characters (250
once the incremented counter reaches `MAX_FAILURES_IN_A_ROW`); the same
summary is written to the local `error.txt`; the `finally` block restores
`state` to `ready`; and the summarized error re-thrown by `sync()` is
caught by the loop, whose tick returns normally, applying only the interval
backoff — the process does not crash. -/
theorem cycle_failure_handling (cfg : Config) (fs : FS)
    (ds : Option DetailedState) (inp : SyncInput) (elapsed : ℚ) (msg : String)
    (hready : fs.state = State.ready) (hfail : inp.fail = some msg)
    (hnc : inp.closedDuring = false)
    (hex : (cfg.exclude.contains "~" || cfg.exclude.contains ".") = false)
    (hnf : fs.numFails < MAX_FAILURES_IN_A_ROW) :
    (syncOp cfg fs inp).fs.numFails = fs.numFails + 1 ∧
    (syncOp cfg fs inp).result =
      Except.error (failExtra (fs.numFails + 1) msg) ∧
    failExtra (fs.numFails + 1) msg =
      (if MAX_FAILURES_IN_A_ROW ≤ fs.numFails + 1 then
        "Sync failed 3 in a row.  FIX THE PROBLEM, THEN CLEAR THIS ERROR TO RESUME SYNC. -- "
          ++ msg.take 250
      else
        "Sync failed " ++ toString (fs.numFails + 1) ++
          " times in a row with -- " ++ msg.take 200 ++ "...") ∧
    Effect.reportState "error" (some (failExtra (fs.numFails + 1) msg))
        (some 0) (some 60) ∈ (syncOp cfg fs inp).effects ∧
    Effect.writeFile (error_txt cfg) (failExtra (fs.numFails + 1) msg) ∈
      (syncOp cfg fs inp).effects ∧
    (syncOp cfg fs inp).fs.state = State.ready ∧
    syncLoopTick cfg fs ds inp elapsed =
      ⟨⟨State.ready, fs.numFails + 1,
          backoffOnError cfg fs.syncInterval⟩,
        (syncOp cfg fs inp).effects,
        waitFor cfg (backoffOnError cfg fs.syncInterval) elapsed⟩ := by
  have hso : syncOp cfg fs inp =
      ⟨⟨State.ready, fs.numFails + 1, fs.syncInterval⟩,
        [Effect.reportState "error" (some (failExtra (fs.numFails + 1) msg))
            (some 0) (some 60),
          Effect.writeFile (error_txt cfg) (failExtra (fs.numFails + 1) msg),
          Effect.reportState "ready" none (some 100)
            (some (3 + fs.syncInterval))],
        Except.error (failExtra (fs.numFails + 1) msg)⟩ := by
    simp [syncOp, hready, hfail, hnc]
  have hn : ¬ (MAX_FAILURES_IN_A_ROW ≤ fs.numFails) := by omega
  refine ⟨by rw [hso], by rw [hso], by simp only [failExtra]; split_ifs <;> rfl, by rw [hso]; simp,
    by rw [hso]; simp, by rw [hso], ?_⟩
  unfold syncLoopTick
  rw [if_neg (by simpa using hex), if_pos hready, if_neg hn, hso]

set_option maxRecDepth 8000 in
/-- Witness for C8: a concrete second consecutive failure with a long
message; the reported and logged summary carries the 200-character
truncation, the counter moves 1 → 2, and the tick absorbs the re-thrown
error with a 1.5× backoff. -/
theorem cycle_failure_handling_witness :
    (syncOp cfgA ⟨State.ready, 1, 10⟩
        { inpA with fail := some "boom" }).fs.numFails = 2 ∧
    (syncOp cfgA ⟨State.ready, 1, 10⟩
        { inpA with fail := some "boom" }).result =
      Except.error "Sync failed 2 times in a row with -- boom..." ∧
    (syncLoopTick cfgA ⟨State.ready, 1, 10⟩ none
        { inpA with fail := some "boom" } 7).fs =
      ⟨State.ready, 2, min 30 ((3 / 2 : ℚ) * 10)⟩ := by
  have h := cycle_failure_handling cfgA ⟨State.ready, 1, 10⟩ none
    { inpA with fail := some "boom" } 7 "boom" rfl rfl rfl (by decide) (by decide)
  refine ⟨h.1, ?_, ?_⟩
  · exact h.2.1.trans (congrArg Except.error (by decide))
  · rw [h.2.2.2.2.2.2]
    simp [backoffOnError, cfgA]

/-- C2: the failure-streak circuit breaker.  Once `numFails` has reached
`MAX_FAILURES_IN_A_ROW` (3), a scheduled tick whose status read does not
show a cleared error performs exactly one effect — reading the detailed
state — and changes nothing; a full sync is attempted again exactly when
the read-back status exists with a falsy `extra` field or a state other
than `"error"` (`errorCleared`); on that resumption the counter is first
reset to 0, and a successful resumed sync terminates with `numFails = 0`. -/
theorem failure_streak_circuit_breaker (cfg : Config) (fs : FS)
    (ds : Option DetailedState) (inp : SyncInput) (elapsed : ℚ)
    (hex : (cfg.exclude.contains "~" || cfg.exclude.contains ".") = false)
    (hready : fs.state = State.ready)
    (hnf : MAX_FAILURES_IN_A_ROW ≤ fs.numFails) :
    (errorCleared ds = false →
      syncLoopTick cfg fs ds inp elapsed =
        ⟨fs, [Effect.getDetailedState], waitFor cfg fs.syncInterval elapsed⟩) ∧
    (errorCleared ds = true →
      (syncLoopTick cfg fs ds inp elapsed).effects =
        Effect.getDetailedState ::
          (syncOp cfg { fs with numFails := 0 } inp).effects) ∧
    (errorCleared ds = true → inp.fail = none →
      (syncLoopTick cfg fs ds inp elapsed).fs.numFails = 0) ∧
    (errorCleared ds = true ↔
      ∃ d, ds = some d ∧ (d.extra.getD "" = "" ∨ d.dstate ≠ "error")) := by
  refine ⟨?_, ?_, ?_, ?_⟩
  · intro hc
    unfold syncLoopTick
    rw [if_neg (by simpa using hex), if_pos hready, if_pos hnf, if_neg (by simp [hc])]
  · intro hc
    unfold syncLoopTick
    rw [if_neg (by simpa using hex), if_pos hready, if_pos hnf, if_pos hc]
  · intro hc hok
    unfold syncLoopTick
    rw [if_neg (by simpa using hex), if_pos hready, if_pos hnf, if_pos hc]
    cases hcd : inp.closedDuring <;>
      simp [syncOp, hready, hok, hcd]
  · cases ds with
    | none => simp [errorCleared]
    | some d =>
        simp only [errorCleared]
        constructor
        · intro hd
          exact ⟨d, rfl, by simpa using hd⟩
        · rintro ⟨d2, hd2, hd3⟩
          cases hd2
          simpa using hd3

/-- Witness for C2: with three accumulated failures, an uncleared error
status (`extra` nonempty, state `"error"`) leaves the tick reading only the
detailed state, while a cleared status resumes and a successful sync resets
the counter to 0. -/
theorem failure_streak_circuit_breaker_witness :
    syncLoopTick cfgA ⟨State.ready, 3, 10⟩
        (some ⟨"error", some "Sync failed 3 in a row"⟩) inpA 7 =
      ⟨⟨State.ready, 3, 10⟩, [Effect.getDetailedState],
        waitFor cfgA 10 7⟩ ∧
    (syncLoopTick cfgA ⟨State.ready, 3, 10⟩ (some ⟨"ready", none⟩) inpA
        7).fs.numFails = 0 := by
  have h1 := failure_streak_circuit_breaker cfgA ⟨State.ready, 3, 10⟩
    (some ⟨"error", some "Sync failed 3 in a row"⟩) inpA 7 (by decide) rfl
    (by decide)
  have h2 := failure_streak_circuit_breaker cfgA ⟨State.ready, 3, 10⟩
    (some ⟨"ready", none⟩) inpA 7 (by decide) rfl (by decide)
  exact ⟨h1.1 (by decide), h2.2.2.1 (by decide) rfl⟩

/-! ### Lemmas about the whiteout scan -/

/-- Reading back the key just written by `computeState[p] = v`. -/
theorem alookup_upsert_self (m : List (String × Int)) (k : String) (v : Int) :
    alookup (upsert m k v) k = some v := by
  induction m with
  | nil => simp [upsert, alookup]
  | cons kv rest ih =>
      obtain ⟨k0, v0⟩ := kv
      by_cases h : k = k0
      · simp [upsert, h, alookup]
      · simp [upsert, h, alookup, ih]

/-- Writing key `k` does not disturb the binding of any other key. -/
theorem alookup_upsert_other (m : List (String × Int)) (k k' : String)
    (v : Int) (h : k' ≠ k) :
    alookup (upsert m k v) k' = alookup m k' := by
  induction m with
  | nil => simp [upsert, alookup, h]
  | cons kv rest ih =>
      obtain ⟨k0, v0⟩ := kv
      by_cases h2 : k = k0
      · subst h2
        simp [upsert, alookup, h]
      · simp [upsert, h2, alookup, ih]

/-- A whiteout-suffixed path decomposes as its stripped prefix followed by
the literal suffix. -/
theorem whiteout_decomp (s : String) (h : isWhiteout s = true) :
    s.data = (stripWhiteout s).data ++ WHITEOUT := by
  have h2 : WHITEOUT <:+ s.data := by
    simpa [isWhiteout] using List.isSuffixOf_iff_suffix.mp h
  obtain ⟨t, ht⟩ := h2
  have hlen : s.data.length - 8 = t.length := by
    rw [← ht, List.length_append]
    simp [WHITEOUT]
  have hst : (stripWhiteout s).data = t := by
    simp only [stripWhiteout, hlen]
    rw [← ht]
    exact List.take_left t WHITEOUT
  rw [hst, ht]

/-- Stripping the whiteout suffix is injective on marker paths. -/
theorem stripWhiteout_inj (a b : String) (ha : isWhiteout a = true)
    (hb : isWhiteout b = true) (h : stripWhiteout a = stripWhiteout b) :
    a = b := by
  apply String.ext
  rw [whiteout_decomp a ha, whiteout_decomp b hb, h]

/-- If no entry of `l` is a whiteout marker whose stripped path is `p`, the
marker loop leaves the binding of `p` unchanged. -/
theorem whiteoutLoop_lookup_of_absent (isDir : String → Bool)
    (l : List (String × Int)) (p : String)
    (h : ∀ q m, (q, m) ∈ l → ¬(isWhiteout q = true ∧ stripWhiteout q = p)) :
    ∀ cs w, alookup (whiteoutLoop isDir l cs w).1 p = alookup cs p := by
  induction l with
  | nil => intro cs w; rfl
  | cons qm rest ih =>
      obtain ⟨q, m⟩ := qm
      intro cs w
      by_cases hw : isWhiteout q = true
      · rw [whiteoutLoop, if_pos hw,
          ih (fun q2 m2 hm => h q2 m2 (List.mem_cons_of_mem _ hm))]
        apply alookup_upsert_other
        intro he
        exact h q m (List.mem_cons_self _ _) ⟨hw, he.symm⟩
      · rw [whiteoutLoop, if_neg hw]
        exact ih (fun q2 m2 hm => h q2 m2 (List.mem_cons_of_mem _ hm)) cs w

/-- The marker loop only ever appends to the whiteouts accumulator. -/
theorem whiteoutLoop_w_mono (isDir : String → Bool)
    (l : List (String × Int)) :
    ∀ cs w x, x ∈ w → x ∈ (whiteoutLoop isDir l cs w).2 := by
  induction l with
  | nil => intro cs w x hx; exact hx
  | cons qm rest ih =>
      obtain ⟨q, m⟩ := qm
      intro cs w x hx
      by_cases hw : isWhiteout q = true
      · rw [whiteoutLoop, if_pos hw]
        exact ih _ _ x (by simp [hx])
      · rw [whiteoutLoop, if_neg hw]
        exact ih _ _ x hx

/-- Core property of the marker loop: a marker entry `(path, mtime)` of a
duplicate-free scan yields the binding `-mtime` for the stripped path, the
marker path in the whiteouts accumulator, and — when the marker is a
directory — the stripped path in the whiteouts accumulator too. -/
theorem whiteoutLoop_marker (isDir : String → Bool)
    (l : List (String × Int)) (hnd : (l.map Prod.fst).Nodup)
    (path : String) (mtime : Int) (hmem : (path, mtime) ∈ l)
    (hw : isWhiteout path = true) :
    ∀ cs w,
      alookup (whiteoutLoop isDir l cs w).1 (stripWhiteout path) =
        some (-mtime) ∧
      path ∈ (whiteoutLoop isDir l cs w).2 ∧
      (isDir path = true →
        stripWhiteout path ∈ (whiteoutLoop isDir l cs w).2) := by
  induction l with
  | nil => cases hmem
  | cons qm rest ih =>
      obtain ⟨q, m⟩ := qm
      intro cs w
      have hnd2 : (rest.map Prod.fst).Nodup := (List.nodup_cons.mp hnd).2
      rcases List.mem_cons.mp hmem with heq | hmem2
      · cases heq
        have hnotin : path ∉ rest.map Prod.fst := (List.nodup_cons.mp hnd).1
        rw [whiteoutLoop, if_pos hw]
        refine ⟨?_, ?_, ?_⟩
        · rw [whiteoutLoop_lookup_of_absent isDir rest (stripWhiteout path)
            ?_ _ _]
          · exact alookup_upsert_self _ _ _
          · rintro q2 m2 hm2 ⟨hw2, hs2⟩
            have hq2 : q2 = path := stripWhiteout_inj _ _ hw2 hw hs2
            subst hq2
            exact hnotin (List.mem_map_of_mem Prod.fst hm2)
        · exact whiteoutLoop_w_mono isDir rest _ _ path (by simp)
        · intro hd
          exact whiteoutLoop_w_mono isDir rest _ _ (stripWhiteout path)
            (by simp [hd])
      · by_cases hwq : isWhiteout q = true
        · rw [whiteoutLoop, if_pos hwq]
          exact ih hnd2 hmem2 _ _
        · rw [whiteoutLoop, if_neg hwq]
          exact ih hnd2 hmem2 _ _

/-- C6: for every entry of the whiteout-directory scan whose path carries
the `"_HIDDEN~"` suffix, the computed `FilesystemState` binds the
*unsuffixed* path to the negation of the marker's change time — a negative
value, so the state holds no positive entry for that path (the binding of a
key is unique) — and when the marker entry is a directory the unsuffixed
path is additionally recorded in the `whiteouts` list. -/
theorem whiteout_scan (upperState unionMtimes : List (String × Int))
    (isDir : String → Bool) (hnd : (unionMtimes.map Prod.fst).Nodup)
    (path : String) (mtime : Int) (hmem : (path, mtime) ∈ unionMtimes)
    (hw : isWhiteout path = true) (hpos : 0 < mtime) :
    alookup (getComputeState upperState unionMtimes isDir).1
        (stripWhiteout path) = some (-mtime) ∧
    -mtime < 0 ∧
    (isDir path = true →
      stripWhiteout path ∈ (getComputeState upperState unionMtimes isDir).2) := by
  have h := whiteoutLoop_marker isDir unionMtimes hnd path mtime hmem hw
    upperState []
  exact ⟨h.1, by omega, h.2.2⟩

/-- Witness for C6: a single directory marker `"d_HIDDEN~"` with change
time 42 yields the binding `"d" ↦ -42` and `"d"` among the whiteouts. -/
theorem whiteout_scan_witness :
    alookup (getComputeState [] [("d_HIDDEN~", 42)] (fun _ => true)).1 "d" =
      some (-42) ∧
    "d" ∈ (getComputeState [] [("d_HIDDEN~", 42)] (fun _ => true)).2 := by
  have h := whiteout_scan [] [("d_HIDDEN~", 42)] (fun _ => true) (by simp)
    "d_HIDDEN~" 42 (by simp) (by decide) (by decide)
  have hs : stripWhiteout "d_HIDDEN~" = "d" := by decide
  exact ⟨by rw [← hs]; exact h.1, by rw [← hs]; exact h.2.2 rfl⟩

/-- C7: when the `api.syncFS` response carries a nonempty
`copyFromProjectTar` manifest path and empty `removeFromCompute` and
`copyFromCompute` lists, and the scan found no local whiteouts (and no
read-tracking file is configured), the cycle issues exactly one `tar.get`,
whose create arguments are
`["-c", "--null", "--no-recursion", "--verbatim-files-from", "--files-from",
man]` — `--files-from` immediately followed by the manifest path — and
whose extract arguments contain `--delay-directory-restore`; no removal and
no `tar.send` occurs. -/
theorem pull_only_cycle (cfg : Config) (i : ℚ) (inp : SyncInput)
    (man : String) (hrt : cfg.readTrackingFile = none)
    (hw : (getComputeState inp.upperState inp.unionMtimes inp.isDir).2 = [])
    (hrm : inp.resp.removeFromCompute = some [])
    (hcc : inp.resp.copyFromCompute = some [])
    (hct : inp.resp.copyFromProjectTar = some man) (hman : man ≠ "") :
    (doSyncEffects cfg i inp).1.filter isTarGet =
      [Effect.tarGet (filesFromArgs man) ["--delay-directory-restore", "-x"]] ∧
    filesFromArgs man =
      ["-c", "--null", "--no-recursion", "--verbatim-files-from",
        "--files-from", man] ∧
    (doSyncEffects cfg i inp).1.filter isRemoveOrSend = [] := by
  refine ⟨?_, rfl, ?_⟩ <;>
    simp [doSyncEffects, hrt, hw, hrm, hcc, hct, hman, jsLenCond, jsStrCond,
      receiveFilesEffects, updateReadTrackingEffects, isTarGet, isRemoveOrSend]

/-- Witness for C7 on a concrete quiet upper layer with manifest `"man"`. -/
theorem pull_only_cycle_witness :
    (doSyncEffects cfgA 10
        { inpA with resp := ⟨some [], some [], some "man"⟩ }).1.filter isTarGet =
      [Effect.tarGet (filesFromArgs "man")
        ["--delay-directory-restore", "-x"]] ∧
    (doSyncEffects cfgA 10
        { inpA with resp := ⟨some [], some [], some "man"⟩ }).1.filter
        isRemoveOrSend = [] := by
  have h := pull_only_cycle cfgA 10
    { inpA with resp := ⟨some [], some [], some "man"⟩ } "man" rfl (by decide)
    rfl rfl rfl (by decide)
  exact ⟨h.1, h.2.2⟩

end SyncFS
